import Mathlib

/-!
Verification of the Product Performance Engine of the `mon_business`
repository (`src/lib/productPerformance.ts`).

The engine is a pure function of three inputs: a list of ledger entries, a
list of stock items and an analysis window in days (the source defaults it
to 30).  JavaScript numbers are modelled by `ℚ`; the single computation
that is not guarded against division by zero (the stock-runway estimate,
lines 72-75 of the source) is modelled with `ExtNum`, rationals extended
with the IEEE-754 special values `+∞`, `-∞` and `NaN` that JavaScript
division can produce.  All other divisions in the source are guarded by a
strict-positivity test on the denominator, so plain rational division is
exact there.
-/

namespace MonBusiness

/-- A ledger entry (`DailyEntry` in `src/types`): an optional product
reference, an entry type string (`SALE`, `EXPENSE`, `STOCK_IN`, ...), an
amount and an optional unit count. -/
structure DailyEntry where
  productId : Option String
  type : String
  amount : ℚ
  quantity : Option ℚ
deriving DecidableEq, Repr

/-- A stock item: id, display name, units currently on hand and cumulative
units ever sold. -/
structure StockItem where
  id : String
  name : String
  quantity : ℚ
  totalSold : ℚ
deriving DecidableEq, Repr

/-- The per-product accumulator built by the aggregation loop of
`calculateProductPerformance` (source lines 21-48): realized revenue,
units sold and realized cost. -/
structure Agg where
  revenue : ℚ
  quantity : ℚ
  totalCost : ℚ
deriving DecidableEq, Repr

/-- JavaScript numbers as far as the stock-runway computation needs them:
a finite rational, `Infinity`, `-Infinity` or `NaN`.  (IEEE negative zero
is identified with zero; it is indistinguishable by the comparisons the
source performs.) -/
inductive ExtNum where
  | fin (q : ℚ)
  | posInf
  | negInf
  | nan
deriving DecidableEq, Repr

/-- JavaScript division on `ExtNum`: finite division is exact, division of
a nonzero finite number by zero gives a signed infinity, `0 / 0` gives
`NaN`, a finite number divided by an infinity gives `0`, and `NaN`
propagates. -/
def ExtNum.div : ExtNum → ExtNum → ExtNum
  | nan, _ => nan
  | _, nan => nan
  | fin a, fin b =>
      if b ≠ 0 then fin (a / b)
      else if 0 < a then posInf
      else if a < 0 then negInf
      else nan
  | fin _, posInf => fin 0
  | fin _, negInf => fin 0
  | posInf, fin b => if b < 0 then negInf else posInf
  | negInf, fin b => if b < 0 then posInf else negInf
  | posInf, posInf => nan
  | posInf, negInf => nan
  | negInf, posInf => nan
  | negInf, negInf => nan

/-- The JavaScript comparison `x > 0` on `ExtNum`: `Infinity > 0` is true,
and any comparison with `NaN` is false. -/
def ExtNum.gtZero : ExtNum → Bool
  | fin q => decide (0 < q)
  | posInf => true
  | negInf => false
  | nan => false

/-- The output record produced for each product (`ProductPerformance` in
`src/types/performance.ts`). -/
structure ProductPerformance where
  productId : String
  productName : String
  totalRevenue : ℚ
  unitsSold : ℚ
  realizedProfit : ℚ
  profitMargin : ℚ
  projectedRevenue : ℚ
  projectedProfit : ℚ
  projectedMargin : ℚ
  currentStock : ℚ
  initialStock : ℚ
  realizationRate : ℚ
  unrealizedValue : ℚ
  stockEfficiency : ℚ
  daysOfStockLeft : ExtNum
  performanceScore : ℤ
  performanceCategory : String
  rankByRevenue : ℕ
  rankByProfit : ℕ
  rankByEfficiency : ℕ
  stockTurnover : ℚ
  estimatedProfit : ℚ
  revenuePerUnit : ℚ
deriving DecidableEq, Repr

/-- One step of the aggregation loop body restricted to the accumulator of
the entry's own product: a `SALE` adds `amount` to revenue and
`quantity || 0` to units sold, an `EXPENSE` or `STOCK_IN` adds `amount` to
cost, any other type leaves the accumulator unchanged (source lines
34-46). -/
def updateAgg (a : Agg) (e : DailyEntry) : Agg :=
  if e.type = "SALE" then
    { revenue := a.revenue + e.amount
      quantity := a.quantity + e.quantity.getD 0
      totalCost := a.totalCost }
  else if e.type = "EXPENSE" ∨ e.type = "STOCK_IN" then
    { revenue := a.revenue
      quantity := a.quantity
      totalCost := a.totalCost + e.amount }
  else a

/-- One iteration of `entries.forEach` (source lines 26-48).  The guard
`if (entry.productId)` is a JavaScript truthiness test, so an absent
product id and the empty-string id are both skipped.  The map with its
`|| {0,0,0}` read-default is modelled as a total function. -/
def applyEntry (m : String → Agg) (e : DailyEntry) : String → Agg :=
  match e.productId with
  | none => m
  | some pid =>
      if pid = "" then m
      else fun k => if k = pid then updateAgg (m pid) e else m k

/-- The grouping pass of `calculateProductPerformance`: fold the entry
list into the product-to-accumulator map (source lines 21-48). -/
def aggregate (entries : List DailyEntry) : String → Agg :=
  entries.foldl applyEntry fun _ => { revenue := 0, quantity := 0, totalCost := 0 }

/-- The lifecycle classifier `categorizePerformance` (source lines
228-273), translated branch for branch. -/
def categorizePerformance (realizedProfit projectedProfit realizationRate currentStock : ℚ) :
    String :=
  if realizationRate = 0 then "NOT_STARTED"
  else if currentStock = 0 then
    if 0 < realizedProfit then "COMPLETED_PROFITABLE"
    else if realizedProfit = 0 then "COMPLETED_BREAKEVEN"
    else "COMPLETED_LOSS"
  else if realizationRate < 100 then
    if 0 < realizedProfit ∧ 0 < projectedProfit then "IN_PROGRESS_STRONG"
    else if realizedProfit < 0 ∧ 0 < projectedProfit then "IN_PROGRESS_RECOVERING"
    else if realizedProfit < 0 ∧ projectedProfit < 0 then "IN_PROGRESS_TROUBLED"
    else if 0 < realizedProfit ∧ projectedProfit < 0 then "IN_PROGRESS_DECLINING"
    else "IN_PROGRESS_NEUTRAL"
  else "UNKNOWN"

/-- The score normalizer `calculateScore` (source lines 275-315):
six upper-capped sub-scores combined with the fixed weights
0.2 / 0.3 / 0.2 / 0.15 / 0.15 / 0.1 and rounded.  `Math.round` rounds
half toward positive infinity, exactly Mathlib's `round` on `ℚ`. -/
def calculateScore (revenue profit efficiency turnover margin realizationRate : ℚ) : ℤ :=
  let revenueScore := min (revenue / 100000 * 100) 100
  let profitScore := min (profit / 50000 * 100) 100
  let efficiencyScore := min efficiency 100
  let turnoverScore := min (turnover * 50) 100
  let marginScore := min margin 100
  let realizationScore := min realizationRate 100
  round (revenueScore * (0.2 : ℚ) + profitScore * (0.3 : ℚ) + efficiencyScore * (0.2 : ℚ)
    + turnoverScore * (0.15 : ℚ) + marginScore * (0.15 : ℚ) + realizationScore * (0.1 : ℚ))

/-- The metric calculator: the body of `stockItems.map` in
`calculateProductPerformance` (source lines 51-154), one stock item plus
the aggregated data looked up at its id. -/
def mkPerformance (dataByProduct : String → Agg) (daysToAnalyze : ℚ) (item : StockItem) :
    ProductPerformance :=
  let data := dataByProduct item.id
  let initialStock := item.totalSold + item.quantity
  let actualCost := data.totalCost
  let actualProfit := data.revenue - actualCost
  let avgPrice := if 0 < data.quantity then data.revenue / data.quantity else 0
  let avgStock := (initialStock + item.quantity) / 2
  let stockTurnover := if 0 < avgStock then data.quantity / avgStock else 0
  let dailySalesRate := ExtNum.div (ExtNum.fin data.quantity) (ExtNum.fin daysToAnalyze)
  let daysOfStockLeft :=
    if dailySalesRate.gtZero then ExtNum.div (ExtNum.fin item.quantity) dailySalesRate
    else ExtNum.posInf
  let stockEfficiency := if 0 < initialStock then data.quantity / initialStock * 100 else 0
  let profitMargin := if 0 < data.revenue then actualProfit / data.revenue * 100 else 0
  let projectedRevenue := data.revenue + item.quantity * avgPrice
  let projectedProfit := projectedRevenue - actualCost
  let realizationRate := if 0 < initialStock then data.quantity / initialStock * 100 else 0
  let unrealizedValue := item.quantity * avgPrice
  let performanceScore :=
    calculateScore data.revenue actualProfit stockEfficiency stockTurnover profitMargin
      realizationRate
  let projectedMargin :=
    if 0 < projectedRevenue then projectedProfit / projectedRevenue * 100 else 0
  let performanceCategory :=
    categorizePerformance actualProfit projectedProfit realizationRate item.quantity
  { productId := item.id
    productName := item.name
    totalRevenue := data.revenue
    unitsSold := data.quantity
    realizedProfit := actualProfit
    profitMargin := profitMargin
    projectedRevenue := data.revenue + item.quantity * avgPrice
    projectedProfit := data.revenue + item.quantity * avgPrice - actualCost
    projectedMargin := projectedMargin
    currentStock := item.quantity
    initialStock := initialStock
    realizationRate := realizationRate
    unrealizedValue := unrealizedValue
    stockEfficiency := stockEfficiency
    daysOfStockLeft := daysOfStockLeft
    performanceScore := performanceScore
    performanceCategory := performanceCategory
    rankByRevenue := 0
    rankByProfit := 0
    rankByEfficiency := 0
    stockTurnover := stockTurnover
    estimatedProfit := actualProfit
    revenuePerUnit := avgPrice }

/-- The order in which `[...products].sort((a, b) => b.key - a.key)`
arranges index-tagged records: strictly larger key first, ties kept in
original index order (JavaScript's sort is stable). -/
def rankKeyRel (key : ProductPerformance → ℚ) (a b : ℕ × ProductPerformance) : Prop :=
  key b.2 < key a.2 ∨ (key a.2 = key b.2 ∧ a.1 ≤ b.1)

instance (key : ProductPerformance → ℚ) (a b : ℕ × ProductPerformance) :
    Decidable (rankKeyRel key a b) := by
  unfold rankKeyRel
  infer_instance

/-- The stable descending sort performed by `addRankings` for one key, on
records tagged with their original position. -/
def stableSortIdx (key : ProductPerformance → ℚ) (l : List ProductPerformance) :
    List (ℕ × ProductPerformance) :=
  List.insertionSort (rankKeyRel key) l.enum

/-- Position of an index-tagged record in a list (the tag makes records
unique, which is how JavaScript's by-reference rank assignment
distinguishes equal-valued objects). -/
def posIn (s : List (ℕ × ProductPerformance)) (x : ℕ × ProductPerformance) : ℕ :=
  s.findIdx fun y => decide (y = x)

/-- The ranks written into the record at original position `jp.1` by the
three `forEach (p, i) => p.rank... = i + 1` passes of `addRankings`
(source lines 318-335): one plus the record's position in the stable
descending sort for each key.  The sorts happen sequentially on the same
objects in the source, but the rank fields are never sort keys, so each
sort sees the same key data. -/
def rankUpdate (products : List ProductPerformance) (jp : ℕ × ProductPerformance) :
    ProductPerformance :=
  { jp.2 with
    rankByRevenue := posIn (stableSortIdx (fun p => p.totalRevenue) products) jp + 1
    rankByProfit := posIn (stableSortIdx (fun p => p.estimatedProfit) products) jp + 1
    rankByEfficiency := posIn (stableSortIdx (fun p => p.stockEfficiency) products) jp + 1 }

/-- `addRankings` (source lines 318-335): every record keeps its place in
the list and receives its three 1-based ranks. -/
def addRankings (products : List ProductPerformance) : List ProductPerformance :=
  products.enum.map (rankUpdate products)

/-- The portfolio summary (`calculateSummary`, source lines 337-372). -/
structure PerformanceSummary where
  totalRevenue : ℚ
  totalProfit : ℚ
  averageMargin : ℚ
  bestByRevenue : Option ProductPerformance
  bestByProfit : Option ProductPerformance
  bestByScore : Option ProductPerformance
  totalProductsAnalyzed : ℕ
deriving DecidableEq, Repr

/-- `products.reduce((best, p) => better p best ? p : best)` with no
initial value: `none` on the empty list, otherwise a left-to-right
reduction starting from the first element, so the first encountered
element wins ties. -/
def reduceBest (better : ProductPerformance → ProductPerformance → Bool) :
    List ProductPerformance → Option ProductPerformance
  | [] => none
  | x :: xs => some (xs.foldl (fun best p => if better p best then p else best) x)

/-- `calculateSummary` (source lines 337-372): totals over the ranked
products, an average margin guarded against zero revenue, and the three
best-by reductions. -/
def calculateSummary (products : List ProductPerformance) : PerformanceSummary :=
  let totalRevenue := products.foldl (fun sum p => sum + p.totalRevenue) 0
  let totalProfit := products.foldl (fun sum p => sum + p.estimatedProfit) 0
  let avgMargin := if 0 < totalRevenue then totalProfit / totalRevenue * 100 else 0
  { totalRevenue := totalRevenue
    totalProfit := totalProfit
    averageMargin := avgMargin
    bestByRevenue := reduceBest (fun p best => decide (best.totalRevenue < p.totalRevenue)) products
    bestByProfit :=
      reduceBest (fun p best => decide (best.estimatedProfit < p.estimatedProfit)) products
    bestByScore :=
      reduceBest (fun p best => decide (best.performanceScore < p.performanceScore)) products
    totalProductsAnalyzed := products.length }

/-- The engine's return value: the ranked product list and the summary. -/
structure PerformanceReport where
  products : List ProductPerformance
  summary : PerformanceSummary
deriving DecidableEq, Repr

/-- `calculateProductPerformance` (source lines 11-166): aggregate the
entries, compute one record per stock item, keep the records with sales,
rank them and summarize them.  `daysToAnalyze` defaults to 30 in the
source; it is an explicit argument here. -/
def calculateProductPerformance (entries : List DailyEntry) (stockItems : List StockItem)
    (daysToAnalyze : ℚ) : PerformanceReport :=
  let dataByProduct := aggregate entries
  let products := stockItems.map (mkPerformance dataByProduct daysToAnalyze)
  let activeProducts := products.filter fun p => decide (0 < p.unitsSold)
  let withRankings := addRankings activeProducts
  { products := withRankings
    summary := calculateSummary withRankings }

/-- Realized revenue of a product id as the specification states it: the
sum of `amount` over the `SALE` entries carrying that id. -/
def specSaleRevenue (entries : List DailyEntry) (pid : String) : ℚ :=
  ((entries.filter fun e => decide (e.type = "SALE" ∧ e.productId = some pid)).map
    fun e => e.amount).sum

/-- Units sold of a product id as the specification states it: the sum of
`quantity` (0 when absent) over the `SALE` entries carrying that id. -/
def specSaleQuantity (entries : List DailyEntry) (pid : String) : ℚ :=
  ((entries.filter fun e => decide (e.type = "SALE" ∧ e.productId = some pid)).map
    fun e => e.quantity.getD 0).sum

/-- Realized cost of a product id as the specification states it: the sum
of `amount` over the `EXPENSE` and `STOCK_IN` entries carrying that id. -/
def specTotalCost (entries : List DailyEntry) (pid : String) : ℚ :=
  ((entries.filter fun e =>
      decide ((e.type = "EXPENSE" ∨ e.type = "STOCK_IN") ∧ e.productId = some pid)).map
    fun e => e.amount).sum

/-- A small concrete product list used to exercise the ranking
theorems. -/
def demoPerfList : List ProductPerformance :=
  [mkPerformance (fun _ => ⟨50, 1, 10⟩) 30 ⟨"a", "A", 1, 1⟩,
    mkPerformance (fun _ => ⟨80, 2, 10⟩) 30 ⟨"b", "B", 1, 1⟩]

/-- Splitting the specification-side revenue sum at the head entry. -/
theorem specSaleRevenue_cons (e : DailyEntry) (es : List DailyEntry) (pid : String) :
    specSaleRevenue (e :: es) pid =
      (if e.type = "SALE" ∧ e.productId = some pid then e.amount else 0)
      + specSaleRevenue es pid := by
  by_cases h : e.type = "SALE" ∧ e.productId = some pid
  · simp [specSaleRevenue, List.filter_cons, h]
  · simp [specSaleRevenue, List.filter_cons, h]

/-- Splitting the specification-side quantity sum at the head entry. -/
theorem specSaleQuantity_cons (e : DailyEntry) (es : List DailyEntry) (pid : String) :
    specSaleQuantity (e :: es) pid =
      (if e.type = "SALE" ∧ e.productId = some pid then e.quantity.getD 0 else 0)
      + specSaleQuantity es pid := by
  by_cases h : e.type = "SALE" ∧ e.productId = some pid
  · simp [specSaleQuantity, List.filter_cons, h]
  · simp [specSaleQuantity, List.filter_cons, h]

/-- Splitting the specification-side cost sum at the head entry. -/
theorem specTotalCost_cons (e : DailyEntry) (es : List DailyEntry) (pid : String) :
    specTotalCost (e :: es) pid =
      (if (e.type = "EXPENSE" ∨ e.type = "STOCK_IN") ∧ e.productId = some pid then e.amount
        else 0)
      + specTotalCost es pid := by
  by_cases h : (e.type = "EXPENSE" ∨ e.type = "STOCK_IN") ∧ e.productId = some pid
  · simp [specTotalCost, List.filter_cons, h]
  · simp [specTotalCost, List.filter_cons, h]

/-- The value of one aggregation step at a fixed non-empty product id. -/
theorem applyEntry_apply (m : String → Agg) (e : DailyEntry) (pid : String) (hpid : pid ≠ "") :
    applyEntry m e pid =
      { revenue := (m pid).revenue
          + (if e.type = "SALE" ∧ e.productId = some pid then e.amount else 0)
        quantity := (m pid).quantity
          + (if e.type = "SALE" ∧ e.productId = some pid then e.quantity.getD 0 else 0)
        totalCost := (m pid).totalCost
          + (if (e.type = "EXPENSE" ∨ e.type = "STOCK_IN") ∧ e.productId = some pid then e.amount
            else 0) } := by
  cases hE : e.productId with
  | none => simp [applyEntry, hE]
  | some q =>
    rcases eq_or_ne q "" with hq | hq
    · subst hq
      have hne : ("" : String) ≠ pid := Ne.symm hpid
      simp [applyEntry, hE, hne]
    · simp only [applyEntry, hE, if_neg hq]
      by_cases hqp : pid = q
      · subst hqp
        simp only [if_pos rfl, Option.some.injEq]
        unfold updateAgg
        split_ifs with h1 h2 <;> simp_all
      · have hne : q ≠ pid := Ne.symm hqp
        simp [hqp, hne]

/-- Folding the aggregation loop from an arbitrary accumulator map adds
exactly the specification-side sums at every non-empty product id. -/
theorem aggregate_loop (pid : String) (hpid : pid ≠ "") :
    ∀ (es : List DailyEntry) (m : String → Agg),
      (es.foldl applyEntry m) pid =
        { revenue := (m pid).revenue + specSaleRevenue es pid
          quantity := (m pid).quantity + specSaleQuantity es pid
          totalCost := (m pid).totalCost + specTotalCost es pid } := by
  intro es
  induction es with
  | nil => intro m; simp [specSaleRevenue, specSaleQuantity, specTotalCost]
  | cons e es ih =>
    intro m
    rw [List.foldl_cons, ih (applyEntry m e), applyEntry_apply m e pid hpid,
      specSaleRevenue_cons, specSaleQuantity_cons, specTotalCost_cons]
    simp [add_assoc]

/-- Claim C6 counterexample: an entry whose product id is the empty
string is skipped by the JavaScript truthiness guard
`if (entry.productId)`, so for the empty-string id the aggregate stays
zero while the claimed sum over SALE entries with that id is 5. -/
theorem claim_C6_counterexample :
    aggregate [⟨some "", "SALE", 5, some 2⟩] "" ≠
      { revenue := specSaleRevenue [⟨some "", "SALE", 5, some 2⟩] ""
        quantity := specSaleQuantity [⟨some "", "SALE", 5, some 2⟩] ""
        totalCost := specTotalCost [⟨some "", "SALE", 5, some 2⟩] "" } := by
  have h1 : (aggregate [⟨some "", "SALE", 5, some 2⟩] "").revenue = 0 := by
    simp [aggregate, applyEntry]
  intro hcon
  rw [hcon] at h1
  simp [specSaleRevenue] at h1

/-- Claim C6 amended: for every entry list and every non-empty product id
(the JavaScript truthiness guard treats the empty-string id like an
absent one), the aggregate equals revenue = sum of `amount` over SALE
entries with that id, quantitySold = sum of `quantity` (0 when absent)
over those entries, and totalCost = sum of `amount` over EXPENSE and
STOCK_IN entries with that id; all other entries contribute to none of
the three fields. -/
theorem claim_C6 :
    ∀ (entries : List DailyEntry) (pid : String), pid ≠ "" →
      aggregate entries pid =
        { revenue := specSaleRevenue entries pid
          quantity := specSaleQuantity entries pid
          totalCost := specTotalCost entries pid } := by
  intro entries pid hpid
  have h := aggregate_loop pid hpid entries fun _ => ⟨0, 0, 0⟩
  simpa [aggregate] using h

/-- Claim C6 witness: the aggregate of a mixed entry list at a concrete
product id. -/
theorem claim_C6_witness :
    aggregate
      [⟨some "p1", "SALE", 100, some 2⟩, ⟨some "p1", "EXPENSE", 30, none⟩,
        ⟨some "p2", "SALE", 7, some 1⟩, ⟨none, "SALE", 9, some 3⟩,
        ⟨some "p1", "STOCK_IN", 20, none⟩, ⟨some "p1", "OTHER", 5, some 4⟩] "p1" =
      { revenue :=
          specSaleRevenue
            [⟨some "p1", "SALE", 100, some 2⟩, ⟨some "p1", "EXPENSE", 30, none⟩,
              ⟨some "p2", "SALE", 7, some 1⟩, ⟨none, "SALE", 9, some 3⟩,
              ⟨some "p1", "STOCK_IN", 20, none⟩, ⟨some "p1", "OTHER", 5, some 4⟩] "p1"
        quantity :=
          specSaleQuantity
            [⟨some "p1", "SALE", 100, some 2⟩, ⟨some "p1", "EXPENSE", 30, none⟩,
              ⟨some "p2", "SALE", 7, some 1⟩, ⟨none, "SALE", 9, some 3⟩,
              ⟨some "p1", "STOCK_IN", 20, none⟩, ⟨some "p1", "OTHER", 5, some 4⟩] "p1"
        totalCost :=
          specTotalCost
            [⟨some "p1", "SALE", 100, some 2⟩, ⟨some "p1", "EXPENSE", 30, none⟩,
              ⟨some "p2", "SALE", 7, some 1⟩, ⟨none, "SALE", 9, some 3⟩,
              ⟨some "p1", "STOCK_IN", 20, none⟩, ⟨some "p1", "OTHER", 5, some 4⟩] "p1" } :=
  claim_C6
    [⟨some "p1", "SALE", 100, some 2⟩, ⟨some "p1", "EXPENSE", 30, none⟩,
      ⟨some "p2", "SALE", 7, some 1⟩, ⟨none, "SALE", 9, some 3⟩,
      ⟨some "p1", "STOCK_IN", 20, none⟩, ⟨some "p1", "OTHER", 5, some 4⟩] "p1" (by simp)

/-- Two accumulator updates on the same product commute: rational
addition is commutative and the SALE and EXPENSE/STOCK_IN branches touch
disjoint fields. -/
theorem updateAgg_comm (a : Agg) (e1 e2 : DailyEntry) :
    updateAgg (updateAgg a e1) e2 = updateAgg (updateAgg a e2) e1 := by
  unfold updateAgg
  split_ifs <;> simp [Agg.mk.injEq, add_right_comm]

/-- Two iterations of the aggregation loop commute. -/
theorem applyEntry_comm (m : String → Agg) (e1 e2 : DailyEntry) :
    applyEntry (applyEntry m e1) e2 = applyEntry (applyEntry m e2) e1 := by
  cases h1 : e1.productId with
  | none => simp [applyEntry, h1]
  | some p =>
    cases h2 : e2.productId with
    | none => simp [applyEntry, h1, h2]
    | some q =>
      rcases eq_or_ne p "" with hp | hp
      · subst hp
        simp [applyEntry, h1, h2]
      · rcases eq_or_ne q "" with hq | hq
        · subst hq
          simp [applyEntry, h1, h2, hp]
        · funext k
          simp only [applyEntry, h1, h2, if_neg hp, if_neg hq]
          by_cases hkp : k = p <;> by_cases hkq : k = q
          · subst hkp
            subst hkq
            simp [updateAgg_comm]
          · subst hkp
            have hpq : ¬ k = q := hkq
            have hqp : ¬ q = k := fun hcon => hkq hcon.symm
            simp [hpq, hqp]
          · subst hkq
            have hqp2 : ¬ k = p := hkp
            have hpq2 : ¬ p = k := fun hcon => hkp hcon.symm
            simp [hqp2, hpq2]
          · simp [hkp, hkq]

/-- Claim C7: the aggregation map is invariant under permutation of the
entry list, hence the whole engine output is as well. -/
theorem claim_C7 :
    ∀ (l1 l2 : List DailyEntry) (stockItems : List StockItem) (daysToAnalyze : ℚ),
      l1.Perm l2 →
      aggregate l1 = aggregate l2
      ∧ calculateProductPerformance l1 stockItems daysToAnalyze =
          calculateProductPerformance l2 stockItems daysToAnalyze := by
  intro l1 l2 stock d hperm
  have hagg : aggregate l1 = aggregate l2 :=
    hperm.foldl_eq' (fun x _ y _ z => applyEntry_comm z x y) _
  refine ⟨hagg, ?_⟩
  simp only [calculateProductPerformance, hagg]

/-- Claim C7 witness: swapping a SALE and an EXPENSE entry leaves the
aggregate and the report unchanged. -/
theorem claim_C7_witness :
    aggregate [⟨some "p1", "SALE", 100, some 2⟩, ⟨some "p1", "EXPENSE", 30, none⟩] =
      aggregate [⟨some "p1", "EXPENSE", 30, none⟩, ⟨some "p1", "SALE", 100, some 2⟩]
    ∧ calculateProductPerformance
        [⟨some "p1", "SALE", 100, some 2⟩, ⟨some "p1", "EXPENSE", 30, none⟩]
        [⟨"p1", "A", 3, 2⟩] 30 =
      calculateProductPerformance
        [⟨some "p1", "EXPENSE", 30, none⟩, ⟨some "p1", "SALE", 100, some 2⟩]
        [⟨"p1", "A", 3, 2⟩] 30 :=
  claim_C7 [⟨some "p1", "SALE", 100, some 2⟩, ⟨some "p1", "EXPENSE", 30, none⟩]
    [⟨some "p1", "EXPENSE", 30, none⟩, ⟨some "p1", "SALE", 100, some 2⟩]
    [⟨"p1", "A", 3, 2⟩] 30
    (List.Perm.swap (⟨some "p1", "EXPENSE", 30, none⟩ : DailyEntry)
      (⟨some "p1", "SALE", 100, some 2⟩ : DailyEntry) [])

/-- One aggregation step preserves pointwise agreement of two accumulator
maps on the ids of a stock list. -/
theorem applyEntry_agree {stockItems : List StockItem} {m1 m2 : String → Agg}
    (h : ∀ it ∈ stockItems, m1 it.id = m2 it.id) (e : DailyEntry) :
    ∀ it ∈ stockItems, applyEntry m1 e it.id = applyEntry m2 e it.id := by
  intro it hit
  cases hE : e.productId with
  | none => simpa [applyEntry, hE] using h it hit
  | some p =>
    rcases eq_or_ne p "" with hp | hp
    · subst hp
      simpa [applyEntry, hE] using h it hit
    · simp only [applyEntry, hE, if_neg hp]
      by_cases hip : it.id = p
      · rw [if_pos hip, if_pos hip, ← hip, h it hit]
      · rw [if_neg hip, if_neg hip]
        exact h it hit

/-- An entry whose product id matches no stock-item id leaves the
accumulator unchanged at every stock-item id. -/
theorem applyEntry_foreign {stockItems : List StockItem} {e : DailyEntry}
    (hk : ∀ s ∈ stockItems, ¬ e.productId = some s.id) (m : String → Agg) :
    ∀ it ∈ stockItems, applyEntry m e it.id = m it.id := by
  intro it hit
  cases hE : e.productId with
  | none => simp [applyEntry, hE]
  | some p =>
    rcases eq_or_ne p "" with hp | hp
    · subst hp
      simp [applyEntry, hE]
    · simp only [applyEntry, hE, if_neg hp]
      have : ¬ it.id = p := by
        intro hcon
        exact hk it hit (by rw [hE, hcon])
      rw [if_neg this]

/-- Dropping the entries that reference no stock item does not change the
aggregation fold at any stock-item id. -/
theorem aggregate_filter_foreign (stockItems : List StockItem) :
    ∀ (es : List DailyEntry) (m1 m2 : String → Agg),
      (∀ it ∈ stockItems, m1 it.id = m2 it.id) →
      ∀ it ∈ stockItems,
        ((es.filter fun e => stockItems.any fun s => decide (e.productId = some s.id)).foldl
            applyEntry m1) it.id
          = (es.foldl applyEntry m2) it.id := by
  intro es
  induction es with
  | nil =>
    intro m1 m2 h it hit
    simpa using h it hit
  | cons e es ih =>
    intro m1 m2 h it hit
    rw [List.filter_cons]
    by_cases hk : (stockItems.any fun s => decide (e.productId = some s.id)) = true
    · rw [if_pos hk, List.foldl_cons, List.foldl_cons]
      exact ih (applyEntry m1 e) (applyEntry m2 e) (applyEntry_agree h e) it hit
    · rw [if_neg hk, List.foldl_cons]
      refine ih m1 (applyEntry m2 e) ?_ it hit
      intro it2 hit2
      have hfor : ∀ s ∈ stockItems, ¬ e.productId = some s.id := by
        intro s hs hcon
        exact hk (List.any_eq_true.mpr ⟨s, hs, by simp [hcon]⟩)
      rw [applyEntry_foreign hfor m2 it2 hit2]
      exact h it2 hit2

/-- Claim C10: removing every ledger entry whose product id equals no
stock-item id leaves the engine output unchanged — such entries are
aggregated but the aggregate is only ever read at stock-item ids. -/
theorem claim_C10 :
    ∀ (entries : List DailyEntry) (stockItems : List StockItem) (daysToAnalyze : ℚ),
      calculateProductPerformance
        (entries.filter fun e => stockItems.any fun s => decide (e.productId = some s.id))
        stockItems daysToAnalyze
      = calculateProductPerformance entries stockItems daysToAnalyze := by
  intro entries stock d
  have hprod :
      stock.map
        (mkPerformance
          (aggregate (entries.filter fun e => stock.any fun s => decide (e.productId = some s.id)))
          d)
        = stock.map (mkPerformance (aggregate entries) d) := by
    apply List.map_congr_left
    intro it hit
    have hagg :
        aggregate (entries.filter fun e => stock.any fun s => decide (e.productId = some s.id))
          it.id = aggregate entries it.id :=
      aggregate_filter_foreign stock entries _ _ (fun _ _ => rfl) it hit
    simp only [mkPerformance, hagg]
  simp only [calculateProductPerformance]
  rw [hprod]

/-- Rank assignment never changes a record's units sold. -/
theorem rankUpdate_unitsSold (l : List ProductPerformance) (jp : ℕ × ProductPerformance) :
    (rankUpdate l jp).unitsSold = jp.2.unitsSold := rfl

/-- Rank assignment never changes a record's product id. -/
theorem rankUpdate_productId (l : List ProductPerformance) (jp : ℕ × ProductPerformance) :
    (rankUpdate l jp).productId = jp.2.productId := rfl

/-- Every record of the ranked list shares units sold and product id with
a record of the unranked list. -/
theorem mem_addRankings_shape {l : List ProductPerformance} {p : ProductPerformance}
    (hp : p ∈ addRankings l) :
    ∃ q ∈ l, p.unitsSold = q.unitsSold ∧ p.productId = q.productId := by
  rcases List.mem_map.mp hp with ⟨jp, hjp, rfl⟩
  have hsnd : jp.2 ∈ l := List.snd_mem_of_mem_enum hjp
  exact ⟨jp.2, hsnd, rfl, rfl⟩

/-- Every record of the unranked list has a ranked counterpart with the
same units sold and product id. -/
theorem exists_addRankings_of_mem {l : List ProductPerformance} {q : ProductPerformance}
    (hq : q ∈ l) :
    ∃ p ∈ addRankings l, p.unitsSold = q.unitsSold ∧ p.productId = q.productId := by
  rcases List.mem_iff_get.mp hq with ⟨n, rfl⟩
  have henum : (n.1, l.get n) ∈ l.enum :=
    List.mk_mem_enum_iff_getElem?.mpr (by simp [List.getElem?_eq_getElem n.2])
  exact ⟨rankUpdate l (n.1, l.get n), List.mem_map_of_mem _ henum, rfl, rfl⟩

/-- Claim C1: every record of the returned report has positive units
sold, the summary is taken over exactly those records, and a stock item
has a record in the report exactly when its computed units sold (its
aggregated SALE quantity) is positive. -/
theorem claim_C1 :
    ∀ (entries : List DailyEntry) (stockItems : List StockItem) (daysToAnalyze : ℚ),
      (∀ p ∈ (calculateProductPerformance entries stockItems daysToAnalyze).products,
        0 < p.unitsSold)
      ∧ (calculateProductPerformance entries stockItems daysToAnalyze).summary =
          calculateSummary (calculateProductPerformance entries stockItems daysToAnalyze).products
      ∧ ∀ item ∈ stockItems,
          ((∃ p ∈ (calculateProductPerformance entries stockItems daysToAnalyze).products,
              p.productId = item.id)
            ↔ 0 < (aggregate entries item.id).quantity) := by
  intro entries stock d
  refine ⟨?_, rfl, ?_⟩
  · intro p hp
    rcases mem_addRankings_shape hp with ⟨q, hq, hunits, _⟩
    have := (List.mem_filter.mp hq).2
    rw [hunits]
    simpa using this
  · intro item hitem
    constructor
    · rintro ⟨p, hp, hpid⟩
      rcases mem_addRankings_shape hp with ⟨q, hq, hunits, hqid⟩
      rcases List.mem_filter.mp hq with ⟨hqmem, hqpos⟩
      rcases List.mem_map.mp hqmem with ⟨item2, _, rfl⟩
      have h1 : p.productId = item2.id := hqid
      have hid : item2.id = item.id := h1.symm.trans hpid
      have hpos : 0 < (aggregate entries item2.id).quantity := by
        have h2 : 0 < (mkPerformance (aggregate entries) d item2).unitsSold := by
          simpa using hqpos
        exact h2
      rwa [hid] at hpos
    · intro hpos
      have hqmem : mkPerformance (aggregate entries) d item ∈
          stock.map (mkPerformance (aggregate entries) d) :=
        List.mem_map_of_mem _ hitem
      have hqfil : mkPerformance (aggregate entries) d item ∈
          (stock.map (mkPerformance (aggregate entries) d)).filter
            fun p => decide (0 < p.unitsSold) :=
        List.mem_filter.mpr ⟨hqmem, by simpa using hpos⟩
      rcases exists_addRankings_of_mem hqfil with ⟨p, hp, _, hpid⟩
      exact ⟨p, hp, hpid⟩

/-- Claim C1 witness: a product with a sale appears in the report of a
concrete invocation. -/
theorem claim_C1_witness :
    (∃ p ∈ (calculateProductPerformance [⟨some "p1", "SALE", 100, some 2⟩]
        [⟨"p1", "A", 3, 2⟩] 30).products, p.productId = "p1")
      ↔ 0 < (aggregate [⟨some "p1", "SALE", 100, some 2⟩] "p1").quantity :=
  (claim_C1 [⟨some "p1", "SALE", 100, some 2⟩] [⟨"p1", "A", 3, 2⟩] 30).2.2
    ⟨"p1", "A", 3, 2⟩ (by simp)

/-- Claim C2: for current stock zero and positive realization rate the
classifier returns exactly the COMPLETED_* state matching the sign of the
realized profit — never an IN_PROGRESS_* state and never UNKNOWN, even at
realization rate 100; Scenario A (revenue 100000, cost 50000, 10 units
sold, 0 on hand, 10 ever sold) yields realized profit 50000, margin 50,
realization rate 100 and COMPLETED_PROFITABLE. -/
theorem claim_C2 :
    (∀ realizedProfit projectedProfit realizationRate currentStock : ℚ,
      currentStock = 0 → 0 < realizationRate →
      categorizePerformance realizedProfit projectedProfit realizationRate currentStock =
        (if 0 < realizedProfit then "COMPLETED_PROFITABLE"
         else if realizedProfit = 0 then "COMPLETED_BREAKEVEN" else "COMPLETED_LOSS"))
    ∧ ((mkPerformance (fun _ => ⟨100000, 10, 50000⟩) 30 ⟨"pA", "A", 0, 10⟩).realizedProfit = 50000
      ∧ (mkPerformance (fun _ => ⟨100000, 10, 50000⟩) 30 ⟨"pA", "A", 0, 10⟩).profitMargin = 50
      ∧ (mkPerformance (fun _ => ⟨100000, 10, 50000⟩) 30 ⟨"pA", "A", 0, 10⟩).realizationRate = 100
      ∧ (mkPerformance (fun _ => ⟨100000, 10, 50000⟩) 30 ⟨"pA", "A", 0, 10⟩).performanceCategory =
          "COMPLETED_PROFITABLE") := by
  constructor
  · intro rp pp rr cs hcs hrr
    simp [categorizePerformance, hcs, hrr.ne']
  · refine ⟨by norm_num [mkPerformance], by norm_num [mkPerformance],
      by norm_num [mkPerformance], by norm_num [mkPerformance, categorizePerformance]⟩

/-- Claim C2 witness: the classifier applied to concrete sold-out
profitable data. -/
theorem claim_C2_witness :
    categorizePerformance 5 7 50 0 =
      (if (0 : ℚ) < 5 then "COMPLETED_PROFITABLE"
       else if (5 : ℚ) = 0 then "COMPLETED_BREAKEVEN" else "COMPLETED_LOSS") :=
  claim_C2.1 5 7 50 0 rfl (by norm_num)

/-- Claim C3 counterexample: the six weights sum to 1.1, not 1.0, so with
every sub-score at its cap of 100 the composite is 110, outside the
claimed range [0, 100]: `calculateScore 100000 100000 100 2 100 100 =
110`.  The input is reachable by a fully sold-out zero-cost product with
revenue 100000. -/
theorem claim_C3_counterexample :
    calculateScore 100000 100000 100 2 100 100 = 110
    ∧ ¬ calculateScore 100000 100000 100 2 100 100 ≤ 100 := by
  have h0 : calculateScore 100000 100000 100 2 100 100 = 110 := by
    norm_num [calculateScore, min_def, round_eq]
  refine ⟨h0, ?_⟩
  rw [h0]
  omega

/-- Claim C3 amended: the composite score is the rounding of the weighted
sum of the six upper-capped sub-scores with weights 0.2 / 0.3 / 0.2 /
0.15 / 0.15 / 0.1 and thresholds 100000, 50000 and turnover factor 50; it
is an integer by construction, lies in [0, 110] (not [0, 100]: the
weights sum to 1.1) when all six inputs are non-negative, is exactly 0 on
all-zero inputs, and is exactly the score stored in every computed
product record. -/
theorem claim_C3 :
    (∀ revenue profit efficiency turnover margin realizationRate : ℚ,
      calculateScore revenue profit efficiency turnover margin realizationRate =
        round ((0.2 : ℚ) * min (revenue / 100000 * 100) 100
          + (0.3 : ℚ) * min (profit / 50000 * 100) 100
          + (0.2 : ℚ) * min efficiency 100
          + (0.15 : ℚ) * min (turnover * 50) 100
          + (0.15 : ℚ) * min margin 100
          + (0.1 : ℚ) * min realizationRate 100))
    ∧ (∀ revenue profit efficiency turnover margin realizationRate : ℚ,
      0 ≤ revenue → 0 ≤ profit → 0 ≤ efficiency → 0 ≤ turnover → 0 ≤ margin →
      0 ≤ realizationRate →
      0 ≤ calculateScore revenue profit efficiency turnover margin realizationRate
      ∧ calculateScore revenue profit efficiency turnover margin realizationRate ≤ 110)
    ∧ calculateScore 0 0 0 0 0 0 = 0
    ∧ (∀ (dataByProduct : String → Agg) (daysToAnalyze : ℚ) (item : StockItem),
      (mkPerformance dataByProduct daysToAnalyze item).performanceScore =
        calculateScore (dataByProduct item.id).revenue
          (mkPerformance dataByProduct daysToAnalyze item).realizedProfit
          (mkPerformance dataByProduct daysToAnalyze item).stockEfficiency
          (mkPerformance dataByProduct daysToAnalyze item).stockTurnover
          (mkPerformance dataByProduct daysToAnalyze item).profitMargin
          (mkPerformance dataByProduct daysToAnalyze item).realizationRate) := by
  refine ⟨fun revenue profit efficiency turnover margin realizationRate => ?_,
    fun revenue profit efficiency turnover margin realizationRate h1 h2 h3 h4 h5 h6 => ?_,
    by norm_num [calculateScore, min_def, round_zero], fun A d item => rfl⟩
  · simp only [calculateScore]
    congr 1
    ring
  · simp only [calculateScore]
    have m1a : (0 : ℚ) ≤ min (revenue / 100000 * 100) 100 :=
      le_min (by positivity) (by norm_num)
    have m2a : (0 : ℚ) ≤ min (profit / 50000 * 100) 100 :=
      le_min (by positivity) (by norm_num)
    have m3a : (0 : ℚ) ≤ min efficiency 100 := le_min h3 (by norm_num)
    have m4a : (0 : ℚ) ≤ min (turnover * 50) 100 := le_min (by positivity) (by norm_num)
    have m5a : (0 : ℚ) ≤ min margin 100 := le_min h5 (by norm_num)
    have m6a : (0 : ℚ) ≤ min realizationRate 100 := le_min h6 (by norm_num)
    have m1b : min (revenue / 100000 * 100) 100 ≤ 100 := min_le_right _ _
    have m2b : min (profit / 50000 * 100) 100 ≤ 100 := min_le_right _ _
    have m3b : min efficiency 100 ≤ 100 := min_le_right _ _
    have m4b : min (turnover * 50) 100 ≤ 100 := min_le_right _ _
    have m5b : min margin 100 ≤ 100 := min_le_right _ _
    have m6b : min realizationRate 100 ≤ 100 := min_le_right _ _
    rw [round_eq]
    constructor
    · have : (0 : ℚ) ≤ min (revenue / 100000 * 100) 100 * 0.2
          + min (profit / 50000 * 100) 100 * 0.3 + min efficiency 100 * 0.2
          + min (turnover * 50) 100 * 0.15 + min margin 100 * 0.15
          + min realizationRate 100 * 0.1 + 1 / 2 := by
        norm_num
        linarith
      exact Int.floor_nonneg.mpr this
    · have hlt : min (revenue / 100000 * 100) 100 * 0.2
          + min (profit / 50000 * 100) 100 * 0.3 + min efficiency 100 * 0.2
          + min (turnover * 50) 100 * 0.15 + min margin 100 * 0.15
          + min realizationRate 100 * 0.1 + 1 / 2 < ((111 : ℤ) : ℚ) := by
        push_cast
        norm_num
        linarith
      have := Int.floor_lt.mpr hlt
      omega

/-- Claim C3 witness: score bounds at a concrete non-negative input. -/
theorem claim_C3_witness :
    0 ≤ calculateScore 1000 500 10 1 20 10 ∧ calculateScore 1000 500 10 1 20 10 ≤ 110 :=
  claim_C3.2.1 1000 500 10 1 20 10 (by norm_num) (by norm_num) (by norm_num) (by norm_num)
    (by norm_num) (by norm_num)

/-- Claim C4 counterexample: invoking the metric calculator with an
analysis window of 0 days on a product with 10 units sold and 20 units on
hand yields `daysOfStockLeft = 0`, not the positive-infinity sentinel:
JavaScript evaluates `10 / 0` to `Infinity`, the guard `Infinity > 0`
holds, and `20 / Infinity` is `0`. -/
theorem claim_C4_counterexample :
    (mkPerformance (fun _ => ⟨100, 10, 20⟩) 0 ⟨"p1", "A", 20, 10⟩).daysOfStockLeft =
      ExtNum.fin 0
    ∧ (mkPerformance (fun _ => ⟨100, 10, 20⟩) 0 ⟨"p1", "A", 20, 10⟩).daysOfStockLeft ≠
      ExtNum.posInf := by
  have h0 : (mkPerformance (fun _ => ⟨100, 10, 20⟩) 0 ⟨"p1", "A", 20, 10⟩).daysOfStockLeft =
      ExtNum.fin 0 := by
    norm_num [mkPerformance, ExtNum.div, ExtNum.gtZero]
  refine ⟨h0, ?_⟩
  rw [h0]
  exact fun hcon => ExtNum.noConfusion hcon

/-- Claim C4 amended: with a zero-day analysis window the computation is
still total (no exception is raised); `daysOfStockLeft` is the
positive-infinity sentinel exactly in the no-sales case
(`quantitySold = 0`, where `0 / 0` is `NaN` and the `> 0` guard fails),
while any positive `quantitySold` makes the daily rate `Infinity` and
`daysOfStockLeft` equal to `0`, not the sentinel. -/
theorem claim_C4_amended :
    ∀ (dataByProduct : String → Agg) (item : StockItem),
      ((dataByProduct item.id).quantity = 0 →
        (mkPerformance dataByProduct 0 item).daysOfStockLeft = ExtNum.posInf)
      ∧ (0 < (dataByProduct item.id).quantity →
        (mkPerformance dataByProduct 0 item).daysOfStockLeft = ExtNum.fin 0) := by
  intro A item
  constructor
  · intro h
    simp [mkPerformance, ExtNum.div, ExtNum.gtZero, h]
  · intro h
    simp [mkPerformance, ExtNum.div, ExtNum.gtZero, h]

/-- Claim C4 witness: both branches of the amended claim at concrete
inputs. -/
theorem claim_C4_witness :
    (mkPerformance (fun _ => ⟨0, 0, 0⟩) 0 ⟨"p", "P", 5, 0⟩).daysOfStockLeft = ExtNum.posInf
    ∧ (mkPerformance (fun _ => ⟨100, 10, 20⟩) 0 ⟨"q", "Q", 20, 10⟩).daysOfStockLeft =
      ExtNum.fin 0 :=
  ⟨(claim_C4_amended (fun _ => ⟨0, 0, 0⟩) ⟨"p", "P", 5, 0⟩).1 rfl,
    (claim_C4_amended (fun _ => ⟨100, 10, 20⟩) ⟨"q", "Q", 20, 10⟩).2 (by norm_num)⟩

/-- Claim C8: in every computed record `realizationRate` and
`stockEfficiency` are equal, both given by
`quantitySold / initialStock * 100` when `initialStock` is positive and
by `0` when `initialStock` is zero, where
`initialStock = totalSold + quantity`. -/
theorem claim_C8 :
    ∀ (dataByProduct : String → Agg) (daysToAnalyze : ℚ) (item : StockItem),
      (mkPerformance dataByProduct daysToAnalyze item).realizationRate =
        (mkPerformance dataByProduct daysToAnalyze item).stockEfficiency
      ∧ (0 < item.totalSold + item.quantity →
          (mkPerformance dataByProduct daysToAnalyze item).realizationRate =
            (dataByProduct item.id).quantity / (item.totalSold + item.quantity) * 100
          ∧ (mkPerformance dataByProduct daysToAnalyze item).stockEfficiency =
            (dataByProduct item.id).quantity / (item.totalSold + item.quantity) * 100)
      ∧ (item.totalSold + item.quantity = 0 →
          (mkPerformance dataByProduct daysToAnalyze item).realizationRate = 0
          ∧ (mkPerformance dataByProduct daysToAnalyze item).stockEfficiency = 0) := by
  intro A d item
  refine ⟨rfl, fun h => ?_, fun h => ?_⟩
  · constructor <;> simp [mkPerformance, h]
  · constructor <;> simp [mkPerformance, h]

/-- Claim C8 witness: both guard branches at concrete inputs. -/
theorem claim_C8_witness :
    ((mkPerformance (fun _ => ⟨100, 4, 30⟩) 30 ⟨"p", "P", 6, 4⟩).realizationRate =
        4 / (4 + 6) * 100
      ∧ (mkPerformance (fun _ => ⟨100, 4, 30⟩) 30 ⟨"p", "P", 6, 4⟩).stockEfficiency =
        4 / (4 + 6) * 100)
    ∧ ((mkPerformance (fun _ => ⟨0, 0, 0⟩) 30 ⟨"q", "Q", 0, 0⟩).realizationRate = 0
      ∧ (mkPerformance (fun _ => ⟨0, 0, 0⟩) 30 ⟨"q", "Q", 0, 0⟩).stockEfficiency = 0) :=
  ⟨(claim_C8 (fun _ => ⟨100, 4, 30⟩) 30 ⟨"p", "P", 6, 4⟩).2.1 (by norm_num),
    (claim_C8 (fun _ => ⟨0, 0, 0⟩) 30 ⟨"q", "Q", 0, 0⟩).2.2 (by norm_num)⟩

/-- Claim C9: when no stock item has positive computed units sold, the
returned product list is empty and the summary has zero total revenue,
zero total profit, zero average margin and absent best-by pointers. -/
theorem claim_C9 :
    ∀ (entries : List DailyEntry) (stockItems : List StockItem) (daysToAnalyze : ℚ),
      (∀ item ∈ stockItems, ¬ 0 < (aggregate entries item.id).quantity) →
      (calculateProductPerformance entries stockItems daysToAnalyze).products = []
      ∧ (calculateProductPerformance entries stockItems daysToAnalyze).summary =
          { totalRevenue := 0, totalProfit := 0, averageMargin := 0, bestByRevenue := none,
            bestByProfit := none, bestByScore := none, totalProductsAnalyzed := 0 } := by
  intro entries stock d h
  have hfil : (stock.map (mkPerformance (aggregate entries) d)).filter
      (fun p => decide (0 < p.unitsSold)) = [] := by
    rw [List.filter_eq_nil_iff]
    intro p hp
    rcases List.mem_map.mp hp with ⟨item, hitem, rfl⟩
    simpa [mkPerformance] using h item hitem
  constructor
  · simp [calculateProductPerformance, hfil, addRankings]
  · simp [calculateProductPerformance, hfil, addRankings, calculateSummary, reduceBest]

/-- Claim C9 witness: the empty portfolio at a concrete input. -/
theorem claim_C9_witness :
    (calculateProductPerformance [] [⟨"p1", "A", 5, 0⟩] 30).products = []
    ∧ (calculateProductPerformance [] [⟨"p1", "A", 5, 0⟩] 30).summary =
        { totalRevenue := 0, totalProfit := 0, averageMargin := 0, bestByRevenue := none,
          bestByProfit := none, bestByScore := none, totalProductsAnalyzed := 0 } :=
  claim_C9 [] [⟨"p1", "A", 5, 0⟩] 30 (by
    intro item h
    simp only [List.mem_singleton] at h
    subst h
    simp [aggregate])

/-- The comparator order used by the ranking sorts is total. -/
theorem rankKeyRel_total (key : ProductPerformance → ℚ) :
    ∀ a b : ℕ × ProductPerformance, rankKeyRel key a b ∨ rankKeyRel key b a := by
  intro a b
  unfold rankKeyRel
  rcases lt_trichotomy (key a.2) (key b.2) with h | h | h
  · exact Or.inr (Or.inl h)
  · rcases Nat.le_total a.1 b.1 with hn | hn
    · exact Or.inl (Or.inr ⟨h, hn⟩)
    · exact Or.inr (Or.inr ⟨h.symm, hn⟩)
  · exact Or.inl (Or.inl h)

instance (key : ProductPerformance → ℚ) :
    IsTotal (ℕ × ProductPerformance) (rankKeyRel key) :=
  ⟨rankKeyRel_total key⟩

/-- The comparator order used by the ranking sorts is transitive. -/
theorem rankKeyRel_trans (key : ProductPerformance → ℚ) :
    ∀ a b c : ℕ × ProductPerformance,
      rankKeyRel key a b → rankKeyRel key b c → rankKeyRel key a c := by
  intro a b c hab hbc
  rcases hab with h1 | ⟨h1, h1n⟩
  · rcases hbc with h2 | ⟨h2, _⟩
    · exact Or.inl (h2.trans h1)
    · exact Or.inl (by rw [← h2]; exact h1)
  · rcases hbc with h2 | ⟨h2, h2n⟩
    · exact Or.inl (by rw [h1]; exact h2)
    · exact Or.inr ⟨h1.trans h2, h1n.trans h2n⟩

instance (key : ProductPerformance → ℚ) :
    IsTrans (ℕ × ProductPerformance) (rankKeyRel key) :=
  ⟨rankKeyRel_trans key⟩

/-- The ranking sort is a permutation of the index-tagged input. -/
theorem stableSortIdx_perm (key : ProductPerformance → ℚ) (l : List ProductPerformance) :
    (stableSortIdx key l).Perm l.enum :=
  List.perm_insertionSort _ _

/-- The ranking sort is sorted for the descending-key, tie-by-index
order. -/
theorem stableSortIdx_sorted (key : ProductPerformance → ℚ) (l : List ProductPerformance) :
    List.Sorted (rankKeyRel key) (stableSortIdx key l) :=
  List.sorted_insertionSort _ _

/-- Index tagging makes the records pairwise distinct. -/
theorem enum_nodup (l : List ProductPerformance) : l.enum.Nodup :=
  List.Nodup.of_map Prod.fst (List.nodup_enum_map_fst l)

/-- The ranking sort has pairwise distinct elements. -/
theorem stableSortIdx_nodup (key : ProductPerformance → ℚ) (l : List ProductPerformance) :
    (stableSortIdx key l).Nodup :=
  ((stableSortIdx_perm key l).symm).nodup (enum_nodup l)

/-- Unfolding `posIn` over a head element. -/
theorem posIn_cons (a : ℕ × ProductPerformance) (s : List (ℕ × ProductPerformance))
    (x : ℕ × ProductPerformance) :
    posIn (a :: s) x = if a = x then 0 else posIn s x + 1 := by
  by_cases h : a = x <;> simp [posIn, List.findIdx_cons, h]

/-- In a duplicate-free list, the position of the element at index `i` is
`i`. -/
theorem posIn_get {s : List (ℕ × ProductPerformance)} (h : s.Nodup) :
    ∀ (i : ℕ) (hi : i < s.length), posIn s (s.get ⟨i, hi⟩) = i := by
  induction s with
  | nil => intro i hi; simp at hi
  | cons a t ih =>
    intro i hi
    cases i with
    | zero => simp [posIn_cons]
    | succ n =>
      have hnd := List.nodup_cons.mp h
      have hn : n < t.length := Nat.lt_of_succ_lt_succ (by simpa using hi)
      have hne : a ≠ t.get ⟨n, hn⟩ := by
        intro hcon
        exact hnd.1 (hcon ▸ List.get_mem t n hn)
      have hstep : (a :: t).get ⟨n + 1, hi⟩ = t.get ⟨n, hn⟩ := rfl
      rw [hstep, posIn_cons, if_neg hne, ih hnd.2 n hn]

/-- Mapping `posIn` over a duplicate-free list enumerates its indices. -/
theorem map_posIn_self {s : List (ℕ × ProductPerformance)} (h : s.Nodup) :
    (s.map fun x => posIn s x) = List.range s.length := by
  apply List.ext_getElem
  · simp
  · intro i h1 h2
    simp only [List.getElem_map, List.getElem_range]
    have hgi : i < s.length := by simpa using h1
    have hx : s[i] = s.get ⟨i, hgi⟩ := by simp
    rw [hx, posIn_get h]

/-- Generic form of the rank-permutation property: for any key whose
rank field is assigned from `posIn` into that key's sort, the assigned
ranks are a permutation of `1..N`. -/
theorem addRankings_rank_perm (l : List ProductPerformance) (key : ProductPerformance → ℚ)
    (g : ProductPerformance → ℕ)
    (hg : ∀ jp : ℕ × ProductPerformance,
      g (rankUpdate l jp) = posIn (stableSortIdx key l) jp + 1) :
    ((addRankings l).map g).Perm (List.range' 1 l.length) := by
  have h1 : (addRankings l).map g = l.enum.map fun jp => posIn (stableSortIdx key l) jp + 1 := by
    rw [addRankings, List.map_map]
    exact List.map_congr_left fun jp _ => hg jp
  rw [h1]
  have h2 : (l.enum.map fun jp => posIn (stableSortIdx key l) jp + 1).Perm
      ((stableSortIdx key l).map fun jp => posIn (stableSortIdx key l) jp + 1) :=
    ((stableSortIdx_perm key l).symm).map _
  refine h2.trans ?_
  have h4 : ((stableSortIdx key l).map fun jp => posIn (stableSortIdx key l) jp + 1)
      = (List.range (stableSortIdx key l).length).map fun i => i + 1 := by
    rw [← map_posIn_self (stableSortIdx_nodup key l), List.map_map]
    rfl
  have h5 : ((List.range (stableSortIdx key l).length).map fun i => i + 1)
      = List.range' 1 (stableSortIdx key l).length := by
    rw [List.range'_eq_map_range]
    exact List.map_congr_left fun i _ => Nat.add_comm i 1
  have hlen : (stableSortIdx key l).length = l.length := by
    rw [(stableSortIdx_perm key l).length_eq, List.enum_length]
  rw [h4, h5, hlen]

/-- The original position recorded in any element of a ranking sort is a
valid index into the ranked list. -/
theorem sortIdx_fst_lt (key : ProductPerformance → ℚ) (l : List ProductPerformance) (k : ℕ)
    (hk : k < (stableSortIdx key l).length) :
    ((stableSortIdx key l).get ⟨k, hk⟩).1 < (addRankings l).length := by
  have hmem : (stableSortIdx key l).get ⟨k, hk⟩ ∈ l.enum :=
    (stableSortIdx_perm key l).subset (List.get_mem _ _ _)
  have hlt := List.fst_lt_of_mem_enum hmem
  simpa [addRankings] using hlt

/-- Generic form of the rank-position property: the record whose tagged
index sits at position `k` of the key's sort receives rank `k + 1`. -/
theorem addRankings_rank_at (l : List ProductPerformance) (key : ProductPerformance → ℚ)
    (g : ProductPerformance → ℕ)
    (hg : ∀ jp : ℕ × ProductPerformance,
      g (rankUpdate l jp) = posIn (stableSortIdx key l) jp + 1)
    (k : ℕ) (hk : k < (stableSortIdx key l).length)
    (hj : ((stableSortIdx key l).get ⟨k, hk⟩).1 < (addRankings l).length) :
    g ((addRankings l).get ⟨((stableSortIdx key l).get ⟨k, hk⟩).1, hj⟩) = k + 1 := by
  have hmem : (stableSortIdx key l).get ⟨k, hk⟩ ∈ l.enum :=
    (stableSortIdx_perm key l).subset (List.get_mem _ _ _)
  have hj2 : ((stableSortIdx key l).get ⟨k, hk⟩).1 < l.enum.length := by
    rw [List.enum_length]
    exact List.fst_lt_of_mem_enum hmem
  have hget : l.enum.get ⟨((stableSortIdx key l).get ⟨k, hk⟩).1, hj2⟩ =
      (stableSortIdx key l).get ⟨k, hk⟩ := by
    have h6 : l[((stableSortIdx key l).get ⟨k, hk⟩).1]? =
        some ((stableSortIdx key l).get ⟨k, hk⟩).2 :=
      List.mem_enum_iff_getElem?.mp hmem
    have hb : ((stableSortIdx key l).get ⟨k, hk⟩).1 < l.length := by
      simpa using hj2
    have h8 : l[((stableSortIdx key l).get ⟨k, hk⟩).1]? =
        some (l.get ⟨((stableSortIdx key l).get ⟨k, hk⟩).1, hb⟩) := by
      simp [List.getElem?_eq_getElem hb]
    rw [h8] at h6
    have h9 : l.get ⟨((stableSortIdx key l).get ⟨k, hk⟩).1, hb⟩ =
        ((stableSortIdx key l).get ⟨k, hk⟩).2 := Option.some_injective _ h6
    rw [List.get_eq_getElem, List.getElem_enum]
    rw [List.get_eq_getElem] at h9
    rw [h9]
  have hmap : (addRankings l).get ⟨((stableSortIdx key l).get ⟨k, hk⟩).1, hj⟩ =
      rankUpdate l (l.enum.get ⟨((stableSortIdx key l).get ⟨k, hk⟩).1, hj2⟩) := by
    simp [addRankings]
  rw [hmap, hget, hg ((stableSortIdx key l).get ⟨k, hk⟩),
    posIn_get (stableSortIdx_nodup key l) k hk]

/-- Claim C5: for each of the three keys the assigned ranks over the `N`
returned records are a permutation of `1..N`; each key's sort is a
permutation of the index-tagged records ordered descending by key with
ties in original order; and the record whose tag sits at position `k` of
a key's sort carries rank `k + 1` for that key. -/
theorem claim_C5 :
    ∀ l : List ProductPerformance,
      (((addRankings l).map fun p => p.rankByRevenue).Perm (List.range' 1 l.length)
        ∧ ((addRankings l).map fun p => p.rankByProfit).Perm (List.range' 1 l.length)
        ∧ ((addRankings l).map fun p => p.rankByEfficiency).Perm (List.range' 1 l.length))
      ∧ (∀ key : ProductPerformance → ℚ,
          (stableSortIdx key l).Perm l.enum
          ∧ List.Sorted (rankKeyRel key) (stableSortIdx key l))
      ∧ (∀ (k : ℕ) (hk : k < (stableSortIdx (fun p => p.totalRevenue) l).length)
          (hj : ((stableSortIdx (fun p => p.totalRevenue) l).get ⟨k, hk⟩).1 <
            (addRankings l).length),
          ((addRankings l).get
              ⟨((stableSortIdx (fun p => p.totalRevenue) l).get ⟨k, hk⟩).1, hj⟩).rankByRevenue
            = k + 1)
      ∧ (∀ (k : ℕ) (hk : k < (stableSortIdx (fun p => p.estimatedProfit) l).length)
          (hj : ((stableSortIdx (fun p => p.estimatedProfit) l).get ⟨k, hk⟩).1 <
            (addRankings l).length),
          ((addRankings l).get
              ⟨((stableSortIdx (fun p => p.estimatedProfit) l).get ⟨k, hk⟩).1, hj⟩).rankByProfit
            = k + 1)
      ∧ (∀ (k : ℕ) (hk : k < (stableSortIdx (fun p => p.stockEfficiency) l).length)
          (hj : ((stableSortIdx (fun p => p.stockEfficiency) l).get ⟨k, hk⟩).1 <
            (addRankings l).length),
          ((addRankings l).get
              ⟨((stableSortIdx (fun p => p.stockEfficiency) l).get ⟨k, hk⟩).1,
                hj⟩).rankByEfficiency
            = k + 1) := by
  intro l
  refine ⟨⟨?_, ?_, ?_⟩,
    fun key => ⟨stableSortIdx_perm key l, stableSortIdx_sorted key l⟩, ?_, ?_, ?_⟩
  · exact addRankings_rank_perm l (fun p => p.totalRevenue) (fun p => p.rankByRevenue)
      fun jp => rfl
  · exact addRankings_rank_perm l (fun p => p.estimatedProfit) (fun p => p.rankByProfit)
      fun jp => rfl
  · exact addRankings_rank_perm l (fun p => p.stockEfficiency) (fun p => p.rankByEfficiency)
      fun jp => rfl
  · exact fun k hk hj => addRankings_rank_at l (fun p => p.totalRevenue)
      (fun p => p.rankByRevenue) (fun jp => rfl) k hk hj
  · exact fun k hk hj => addRankings_rank_at l (fun p => p.estimatedProfit)
      (fun p => p.rankByProfit) (fun jp => rfl) k hk hj
  · exact fun k hk hj => addRankings_rank_at l (fun p => p.stockEfficiency)
      (fun p => p.rankByEfficiency) (fun jp => rfl) k hk hj

/-- Claim C5 witness: ranks of a concrete two-product list form a
permutation of `1..2`, and the record at position 0 of the revenue sort
carries revenue rank 1. -/
theorem claim_C5_witness :
    ((addRankings demoPerfList).map fun p => p.rankByRevenue).Perm
      (List.range' 1 demoPerfList.length)
    ∧ ((addRankings demoPerfList).get
        ⟨((stableSortIdx (fun p => p.totalRevenue) demoPerfList).get
            ⟨0, (by
              rw [stableSortIdx, List.length_insertionSort, List.enum_length]
              simp [demoPerfList])⟩).1,
          sortIdx_fst_lt (fun p => p.totalRevenue) demoPerfList 0
            (by
              rw [stableSortIdx, List.length_insertionSort, List.enum_length]
              simp [demoPerfList])⟩).rankByRevenue = 0 + 1 :=
  ⟨(claim_C5 demoPerfList).1.1,
    (claim_C5 demoPerfList).2.2.1 0
      (by rw [stableSortIdx, List.length_insertionSort, List.enum_length]; simp [demoPerfList])
      (sortIdx_fst_lt (fun p => p.totalRevenue) demoPerfList 0
        (by rw [stableSortIdx, List.length_insertionSort, List.enum_length]; simp [demoPerfList]))⟩

end MonBusiness
